import Mathlib

/-!
Verification development for the violation-correlation and delivery pipeline of
the frigate-surveillance-middleware repository.

The definitions below are a shallow embedding of the Python source:

* `app/services/queries.py` — the SQL correlation query `get_live_violations`
  and the aggregate query `get_hourly_trend`, embedded as pure functions over a
  list of `Detection` rows (the `timeline` table) and an explicit `now`.
* `app/cache.py` — `CacheManager.get`/`set` (over a model of the Redis store)
  and the interleaving behaviour of `CacheUtils.get_or_set`.
* `app/services/background.py` — the violation-polling loop, the cache-cleanup
  loop (with the Python name-resolution of its body), and `restart_task`.
* `app/routers/websocket.py` — the `ConnectionManager` broadcast loops.

Timestamps, scores and TTLs are modelled as rationals (`ℚ`): the Python floats
and PostgreSQL numerics in play carry small decimal values and no claim depends
on float rounding.  Machine-level JSON serialisation is elided: cached payloads
are carried as opaque values.
-/

namespace Frigate

/-- One row of the Frigate `timeline` table as consumed by the queries in
`app/services/queries.py`.  The JSON `data` column is flattened into the fields
the queries actually read: `data->>'label'`, `data->'sub_label'` (a
`[name, score]` pair or SQL NULL), `data->'zones'` (array of zone ids, first is
primary), plus the `source` and `source_id` columns. -/
structure Detection where
  timestamp : ℚ
  camera : String
  label : String
  subLabel : Option (String × ℚ)
  zones : List String
  source : String
  sourceId : String
deriving DecidableEq, Repr, Inhabited

/-- The literal desk-assignment VALUES table embedded in the
`get_live_violations` query string (`app/services/queries.py`, lines 67-128). -/
def deskAssignments : List (String × String) :=
  [("desk_1", "Safia Imtiaz"),
   ("desk_2", "Kinza Amin"),
   ("desk_3", "Aiman Jawaid"),
   ("desk_4", "Nimra Ghulam Fareed"),
   ("desk_5", "Summaiya Khan"),
   ("desk_6", "Arifa Dhari"),
   ("desk_7", "Khalid Ahmed"),
   ("desk_9", "Muhammad Arsalan"),
   ("desk_10", "Saadullah Khoso"),
   ("desk_11", "Muhammad Taha"),
   ("desk_12", "Muhammad Awais"),
   ("desk_13", "Nabeel Bhatti"),
   ("desk_14", "Abdul Qayoom"),
   ("desk_15", "Sharjeel Abbas"),
   ("desk_16", "Saad Bin Salman"),
   ("desk_17", "Sufiyan Ahmed"),
   ("desk_18", "Muhammad Qasim"),
   ("desk_19", "Sameer Panhwar"),
   ("desk_20", "Bilal Soomro"),
   ("desk_21", "Saqlain Murtaza"),
   ("desk_22", "Syed Hussain Ali Kazi"),
   ("desk_23", "Saad Khan"),
   ("desk_24", "Kabeer Rajput"),
   ("desk_25", "Mehmood Memon"),
   ("desk_26", "Ali Habib"),
   ("desk_27", "Bhamar Lal"),
   ("desk_28", "Atban Bin Aslam"),
   ("desk_29", "Sadique Khowaja"),
   ("desk_30", "Syed Awwab"),
   ("desk_31", "Samad Siyal"),
   ("desk_32", "Wasi Khan"),
   ("desk_33", "Kashif Raza"),
   ("desk_34", "Wajahat Imam"),
   ("desk_35", "Bilal Ahmed"),
   ("desk_36", "Muhammad Usman"),
   ("desk_37", "Arsalan Khan"),
   ("desk_38", "Abdul Kabeer"),
   ("desk_39", "Gian Chand"),
   ("desk_40", "Ayan Arain"),
   ("desk_41", "Zaib Ali Mughal"),
   ("desk_42", "Abdul Wassay"),
   ("desk_43", "Aashir Ali"),
   ("desk_44", "Ali Raza"),
   ("desk_45", "Muhammad Tabish"),
   ("desk_46", "Farhan Ali"),
   ("desk_47", "Tahir Ahmed"),
   ("desk_48", "Zain Nawaz"),
   ("desk_49", "Ali Memon"),
   ("desk_50", "Muhammad Wasif Samoon"),
   ("desk_52", "Sumair Hussain"),
   ("desk_53", "Natasha Batool"),
   ("desk_55", "Preet Nuckrich"),
   ("desk_59", "Muhammad Uzair"),
   ("desk_62", "Muhammad Roshan"),
   ("desk_58", "Konain Mustafa"),
   ("desk_61", "Hira Memon"),
   ("desk_63", "Syed Safwan Ali Hashmi"),
   ("desk_64", "Arbaz"),
   ("desk_65", "Muhammad Shakir"),
   ("desk_66", "Muneeb Intern")]

/-- Lookup of a zone id in the desk-assignment table (the SQL join
`desk_list.desk_zone = da.desk_zone`). -/
def lookupDesk (z : String) : Option String :=
  (deskAssignments.find? (fun p => p.1 == z)).map (fun p => p.2)

/-- The SQL predicate `desk_zone LIKE 'desk_%'`: in LIKE patterns `_` matches
exactly one character and `%` any (possibly empty) suffix, so the pattern
accepts any string of length at least 5 beginning with `desk`. -/
def likeDeskPattern (z : String) : Bool :=
  5 ≤ z.length && z.take 4 == "desk"

/-- A zone element survives the lateral join of `get_live_violations` when it
equals a desk-assignment key and satisfies `LIKE 'desk_%'`. -/
def zoneMatches (z : String) : Bool :=
  likeDeskPattern z && (lookupDesk z).isSome

/-- Default of `settings.face_detection_window` (`app/config.py`): 3 seconds. -/
def faceDetectionWindow : ℚ := 3

/-- Default of `settings.video_api_base_url` (`app/config.py`). -/
def videoApiBaseUrl : String := "http://10.0.20.6:5001"

/-- The `violation_zones` CTE of `get_live_violations`: rows of `timeline`
labelled `cell phone` whose timestamp is strictly newer than
`now - hours*3600`, optionally restricted to one camera. -/
def violationZones (detections : List Detection) (camera : Option String)
    (hours : ℕ) (now : ℚ) : List Detection :=
  detections.filter (fun p =>
    p.label == "cell phone"
      && decide (now - (hours : ℚ) * 3600 < p.timestamp)
      && (match camera with
          | none => true
          | some c => p.camera == c))

/-- The `da` subquery of `get_live_violations`: for a violation id, the desk
employee chosen by `DISTINCT ON (vz.id)` over all (row, zone) pairs whose zone
joins the desk table.  The query states no ORDER BY for this DISTINCT ON, so
PostgreSQL picks an unspecified matching pair; the embedding resolves the
choice deterministically to the first matching pair in row order then
zone-array order (the order the nested-loop plan encounters them in). -/
def deskAttribution (rows : List Detection) (id : String) : Option String :=
  rows.findSome? (fun p =>
    if p.sourceId == id then (p.zones.find? zoneMatches).bind lookupDesk
    else none)

/-- One record of the `get_live_violations` result set.  `thumbnail_url` and
`video_url` are constant NULL in the query and are omitted. -/
structure ViolationRecord where
  timestamp : ℚ
  camera : String
  id : String
  zones : List String
  employeeName : String
  confidence : ℚ
  snapshotUrl : String
deriving DecidableEq, Repr, Inhabited

/-- The SELECT list of `get_live_violations` for one `violation_zones` row:
employee and confidence come only from the desk attribution (the query comments
state that face verification was removed), defaulting to `Unknown` / 0. -/
def mkViolationRecord (rows : List Detection) (v : Detection) : ViolationRecord :=
  { timestamp := v.timestamp
    camera := v.camera
    id := v.sourceId
    zones := v.zones
    employeeName := (deskAttribution rows v.sourceId).getD "Unknown"
    confidence := if (deskAttribution rows v.sourceId).isSome then 1 else 0
    snapshotUrl := videoApiBaseUrl ++ "/snapshot/" ++ v.camera ++ "/" ++ v.sourceId }

/-- Descending-timestamp order used by `ORDER BY v.timestamp DESC`. -/
def tsDesc (a b : Detection) : Prop := b.timestamp ≤ a.timestamp

instance : DecidableRel tsDesc :=
  fun a b => inferInstanceAs (Decidable (b.timestamp ≤ a.timestamp))

/-- Embedding of `ViolationQueries.get_live_violations`
(`app/services/queries.py`, lines 19-188): filter phone detections to the
window, left-join the desk attribution, order by timestamp descending and
apply LIMIT. -/
def getLiveViolations (detections : List Detection) (camera : Option String)
    (hours limit : ℕ) (now : ℚ) : List ViolationRecord :=
  let rows := violationZones detections camera hours now
  ((List.insertionSort tsDesc rows).take limit).map (mkViolationRecord rows)

/-! Embedding of `ViolationQueries.get_hourly_trend`
(`app/services/queries.py`, lines 190-265). -/

/-- PostgreSQL `generate_series(start, stop, step)` for a positive step: the
values `start + k * step` for `k = 0, 1, ...` while the value stays at most
`stop`.  For `start ≤ stop` that is `⌊(stop - start) / step⌋ + 1` values. -/
def genSeries (start stop step : ℚ) : List ℚ :=
  if step ≤ 0 then []
  else if stop < start then []
  else (List.range ((⌊(stop - start) / step⌋).toNat + 1)).map
    (fun (k : ℕ) => start + (k : ℚ) * step)

/-- The SQL expression `FLOOR(timestamp / 3600) * 3600`. -/
def floorHour (t : ℚ) : ℚ := ((⌊t / 3600⌋ : ℤ) : ℚ) * 3600

/-- The `nf` subquery of `get_hourly_trend`: among `timeline` rows on the same
camera with `source = 'tracked_object'`, a non-null `sub_label`, and
`ABS(f.timestamp - p.timestamp) < face_window`, pick the row with minimal
absolute timestamp difference (`ORDER BY ... ABS(f.timestamp - p.timestamp)`
under `DISTINCT ON`); ties keep the earlier candidate in scan order. -/
def nearestTracked (detections : List Detection) (cam : String) (t : ℚ) :
    Option Detection :=
  (detections.filter (fun f =>
      f.camera == cam && f.source == "tracked_object" && f.subLabel.isSome
        && decide (|f.timestamp - t| < faceDetectionWindow))).foldl
    (fun acc f =>
      match acc with
      | none => some f
      | some g => if |f.timestamp - t| < |g.timestamp - t| then some f else some g)
    none

/-- The `hourly_violations` CTE: one row per phone detection in the window,
carrying its hour bucket `FLOOR(timestamp/3600)*3600`, its camera, and
`COALESCE(nf.employee_name, 'Unknown')`. -/
def hourlyViolationRows (detections : List Detection) (now : ℚ) (hours : ℕ) :
    List (ℚ × String × String) :=
  (violationZones detections none hours now).map (fun p =>
    (floorHour p.timestamp, p.camera,
      ((nearestTracked detections p.camera p.timestamp).bind
        (fun f => f.subLabel.map (fun s => s.1))).getD "Unknown"))

/-- One output row of `get_hourly_trend`. -/
structure HourlyBucket where
  hour : ℚ
  violations : ℕ
  cameras : List String
  employees : List String
deriving DecidableEq, Repr, Inhabited

/-- The grouped SELECT of `get_hourly_trend` for one `hour_start` value:
`COUNT(hv.hour)` counts the joined violation rows, and the two
`ARRAY_AGG(DISTINCT ...)` aggregates deduplicate cameras and employee names
(aggregate order is not load-bearing; first occurrence is kept here). -/
def hourlyBucketAt (hv : List (ℚ × String × String)) (h : ℚ) : HourlyBucket :=
  { hour := h
    violations := (hv.filter (fun r => r.1 == h)).length
    cameras := ((hv.filter (fun r => r.1 == h)).map (fun r => r.2.1)).eraseDups
    employees := ((hv.filter (fun r => r.1 == h)).map (fun r => r.2.2)).eraseDups }

/-- Embedding of `ViolationQueries.get_hourly_trend`: the `hourly_buckets` CTE
is `generate_series(EXTRACT(EPOCH FROM NOW()) - hours*3600,
EXTRACT(EPOCH FROM NOW())::integer, 3600)` — the cast to integer applies only
to the stop bound (rounding it), the start bound keeps the fractional
seconds of `now` — and the result is grouped per series value and ordered by
`hour_start DESC`. -/
def getHourlyTrend (detections : List Detection) (now : ℚ) (hours : ℕ) :
    List HourlyBucket :=
  let series := genSeries (now - (hours : ℚ) * 3600) ((round now : ℤ) : ℚ) 3600
  let hv := hourlyViolationRows detections now hours
  series.reverse.map (hourlyBucketAt hv)

/-! Embedding of `CacheManager.get` / `CacheManager.set` (`app/cache.py`,
lines 55-101) over a model of the backing Redis store.  Serialized payloads
are carried as opaque strings. -/

/-- One stored Redis entry: the serialized value and the storage-layer expiry
deadline that `SETEX` attached to it (none for a plain `SET`). -/
structure RedisEntry where
  value : String
  expireAt : Option ℚ
deriving DecidableEq, Repr

/-- The backing Redis keyspace. -/
def RedisStore : Type := List (String × RedisEntry)

/-- Plain Redis `SET key value` (no expiry). -/
def redisSet (st : RedisStore) (k v : String) : RedisStore :=
  (k, { value := v, expireAt := none })
    :: List.filter (fun p => p.1 != k) st

/-- Redis `SETEX key ttl value`: stores the value with storage-layer expiry at
`now + ttl`. -/
def redisSetex (st : RedisStore) (now : ℚ) (k : String) (ttl : ℚ) (v : String) :
    RedisStore :=
  (k, { value := v, expireAt := some (now + ttl) })
    :: List.filter (fun p => p.1 != k) st

/-- Raw lookup in the store. -/
def redisLookup (st : RedisStore) (k : String) : Option RedisEntry :=
  (List.find? (fun p => p.1 == k) st).map (fun p => p.2)

/-- Redis `GET` at time `now`.  `expiryEnforced` models whether the backing
store is currently applying its own expiry to the key ("has evicted" /
lazily expires it on read); when it is `false` the entry is still served even
past its deadline, which is exactly the hypothetical the spec's TTL invariant
quantifies over. -/
def redisGet (expiryEnforced : Bool) (st : RedisStore) (k : String) (now : ℚ) :
    Option String :=
  match redisLookup st k with
  | none => none
  | some e =>
    if expiryEnforced then
      match e.expireAt with
      | some exp => if exp ≤ now then none else some e.value
      | none => some e.value
    else some e.value

/-- Embedding of `CacheManager.set`: returns the store unchanged when the
manager has no connection; otherwise issues `SETEX` when a (truthy) ttl was
given and plain `SET` otherwise.  Python's `if ttl:` is falsy for both `None`
and `0`, so a zero ttl also takes the plain `SET` branch. -/
def cacheManagerSet (connected : Bool) (st : RedisStore) (now : ℚ)
    (k v : String) (ttl : Option ℚ) : RedisStore :=
  if connected then
    match ttl with
    | some t => if t == 0 then redisSet st k v else redisSetex st now k t v
    | none => redisSet st k v
  else st

/-- Embedding of `CacheManager.get`: `None` without a connection, otherwise
whatever the backing store returns — the manager consults no write-time TTL
record of its own. -/
def cacheManagerGet (connected expiryEnforced : Bool) (st : RedisStore)
    (k : String) (now : ℚ) : Option String :=
  if connected then redisGet expiryEnforced st k now else none

/-! Interleaving model of `CacheUtils.get_or_set` (`app/cache.py`, lines
309-333; the `@cached` decorator at lines 283-302 has the same
get-then-compute-then-set shape).  Each caller runs three awaited stages:
read the cache, run the refresh function (counted), write the result.  A
scheduler list picks which caller advances at each step. -/

/-- Progress of one `get_or_set` caller. -/
inductive CallerPhase where
  | ready
  | missed
  | writing
  | doneHit
  | doneComputed
deriving DecidableEq, Repr

/-- Shared state: the cache slot for the key, every caller's phase, and how
many times the refresh function has been entered. -/
structure SingleFlightState where
  cache : Option ℕ
  callers : List CallerPhase
  refreshCount : ℕ
deriving DecidableEq, Repr

/-- One awaited stage of one caller against the shared cache slot; the third
component is 1 exactly when this stage entered the refresh function. -/
def phaseStep (result : ℕ) (cache : Option ℕ) :
    CallerPhase → CallerPhase × Option ℕ × ℕ
  | .ready =>
    match cache with
    | some _ => (.doneHit, cache, 0)
    | none => (.missed, cache, 0)
  | .missed => (.writing, cache, 1)
  | .writing => (.doneComputed, some result, 0)
  | .doneHit => (.doneHit, cache, 0)
  | .doneComputed => (.doneComputed, cache, 0)

/-- Advance the caller at position `i` by one stage. -/
def stepAt (result : ℕ) :
    List CallerPhase → ℕ → Option ℕ → List CallerPhase × Option ℕ × ℕ
  | [], _, cache => ([], cache, 0)
  | ph :: rest, 0, cache =>
    let r := phaseStep result cache ph
    (r.1 :: rest, r.2)
  | ph :: rest, Nat.succ i, cache =>
    let r := stepAt result rest i cache
    (ph :: r.1, r.2)

/-- One scheduler step of the interleaved `get_or_set` callers. -/
def sfStep (result : ℕ) (s : SingleFlightState) (i : ℕ) : SingleFlightState :=
  let r := stepAt result s.callers i s.cache
  { cache := r.2.1, callers := r.1, refreshCount := s.refreshCount + r.2.2 }

/-- Run a schedule of caller indices. -/
def runGetOrSet (result : ℕ) (sched : List ℕ) (s : SingleFlightState) :
    SingleFlightState :=
  sched.foldl (sfStep result) s

/-- Initial state: the key is absent (or already expired from the backing
store) and `n` callers are about to enter `get_or_set`. -/
def initSingleFlight (n : ℕ) : SingleFlightState :=
  { cache := none, callers := List.replicate n .ready, refreshCount := 0 }

/-! Embedding of `BackgroundTaskManager._violation_polling_task`
(`app/services/background.py`, lines 97-135).  One tick runs the live
violations query, writes its cache key, runs the hourly-trend query, writes
its cache key; the surrounding `except Exception` logs any error, and the
loop sleeps and repeats regardless. -/

/-- Outcomes the environment supplies to one tick: each of the two queries
either returns rows or raises. -/
structure PollTickOracle where
  live : Except Unit (List ViolationRecord)
  trend : Except Unit (List HourlyBucket)

/-- The cached values for the two keys written by the violation-polling task
(`violations:live:...` and `violations:hourly_trend:...`). -/
structure PollCache where
  liveValue : Option (List ViolationRecord)
  trendValue : Option (List HourlyBucket)
deriving DecidableEq

/-- One tick of the violation-polling loop: the boolean is whether the
`except` handler logged an error this tick.  A failure of the first query
aborts the tick before any cache write; a failure of the second aborts after
the first write. -/
def violationPollingTick (o : PollTickOracle) (c : PollCache) : PollCache × Bool :=
  match o.live with
  | .error _ => (c, true)
  | .ok v =>
    let c1 : PollCache := { c with liveValue := some v }
    match o.trend with
    | .error _ => (c1, true)
    | .ok t => ({ c1 with trendValue := some t }, false)

/-- The polling loop over a stream of tick outcomes; returns the final cache
and the per-tick logged-error flags (one entry per executed tick). -/
def runViolationPolling : List PollTickOracle → PollCache → PollCache × List Bool
  | [], c => (c, [])
  | o :: os, c =>
    let r := violationPollingTick o c
    let rest := runViolationPolling os r.1
    (rest.1, r.2 :: rest.2)

/-! Trace model of the task registry of `BackgroundTaskManager`
(`app/services/background.py`): `start` (lines 36-67), `stop` (lines 69-95),
`restart_task` (lines 306-337), plus an environment step for a task body
ending on its own.  Each operation appends the events it performs, in program
order, to a global trace; `await task` after `cancel()` returns only once the
awaited instance has finished, so the `finished` event of the old instance
precedes the `started` event of its replacement inside `restart_task`. -/

/-- Lifecycle events of named task instances. -/
inductive TaskEvent where
  | started (name : String) (id : ℕ)
  | finished (name : String) (id : ℕ)
  | cancelRequested (name : String) (id : ℕ)
deriving DecidableEq, Repr

/-- Fold step computing the currently-alive instance ids of a named task:
`started` adds an id, `finished` retires it. -/
def aliveStep (n : String) (acc : List ℕ) : TaskEvent → List ℕ
  | .started m id => if m == n then acc ++ [id] else acc
  | .finished m id => if m == n then acc.filter (fun x => x != id) else acc
  | .cancelRequested _ _ => acc

/-- Instance ids of task `n` that have started but not finished at the end of
trace `t`. -/
def aliveIds (t : List TaskEvent) (n : String) : List ℕ :=
  t.foldl (aliveStep n) []

/-- A registry slot: the `asyncio.Task` instance currently stored under a
name, and whether `task.done()` is true for it. -/
structure TaskInst where
  id : ℕ
  done : Bool
deriving DecidableEq, Repr

/-- State of the `BackgroundTaskManager`: `self.tasks`, `self.is_running`, a
fresh-id supply, and the accumulated event trace. -/
structure SupervisorState where
  reg : List (String × TaskInst)
  isRunning : Bool
  next : ℕ
  trace : List TaskEvent
deriving DecidableEq, Repr

/-- The four task names created by `start`. -/
def taskNames : List String :=
  ["violation_polling", "stats_refresh", "cache_cleanup", "health_check"]

/-- Registry lookup (`self.tasks[name]`). -/
def lookupTask (reg : List (String × TaskInst)) (n : String) : Option TaskInst :=
  (reg.find? (fun p => p.1 == n)).map (fun p => p.2)

/-- Registry update (`self.tasks[name] = task`). -/
def setTask (reg : List (String × TaskInst)) (n : String) (i : TaskInst) :
    List (String × TaskInst) :=
  reg.map (fun p => if p.1 == n then (p.1, i) else p)

/-- Supervisor operations: the public methods, plus `bodyEnds` for a running
task instance terminating on its own. -/
inductive SupOp where
  | start
  | stop
  | restart (name : String)
  | bodyEnds (name : String)

/-- The four named tasks `start` creates, paired with their fresh instance
ids. -/
def startEntries (base : ℕ) : List (String × ℕ) :=
  [("violation_polling", base), ("stats_refresh", base + 1),
   ("cache_cleanup", base + 2), ("health_check", base + 3)]

/-- Cancel-and-await events `stop` emits for the still-running entries, in
registry order. -/
def stopEvents (reg : List (String × TaskInst)) : List TaskEvent :=
  reg.flatMap (fun p =>
    if p.2.done then []
    else [TaskEvent.cancelRequested p.1 p.2.id, TaskEvent.finished p.1 p.2.id])

/-- One supervisor operation, run to completion before the next begins.
`restart` mirrors `restart_task`: unknown names raise `ValueError` and do
nothing; a not-yet-done old instance is cancelled and awaited (its `finished`
event lands before the new `started` event); a fresh instance is then
registered under the same name. -/
def supExec (s : SupervisorState) : SupOp → SupervisorState
  | .start =>
    if s.isRunning then s
    else
      { reg := (startEntries s.next).map (fun p => (p.1, TaskInst.mk p.2 false))
        isRunning := true
        next := s.next + 4
        trace := s.trace ++
          (startEntries s.next).map (fun p => TaskEvent.started p.1 p.2) }
  | .stop =>
    if s.isRunning then
      { reg := [], isRunning := false, next := s.next,
        trace := s.trace ++ stopEvents s.reg }
    else s
  | .restart n =>
    match lookupTask s.reg n with
    | none => s
    | some inst =>
      { reg := setTask s.reg n ⟨s.next, false⟩
        isRunning := s.isRunning
        next := s.next + 1
        trace := s.trace
          ++ (if inst.done then []
              else [TaskEvent.cancelRequested n inst.id, TaskEvent.finished n inst.id])
          ++ [TaskEvent.started n s.next] }
  | .bodyEnds n =>
    match lookupTask s.reg n with
    | none => s
    | some inst =>
      if inst.done then s
      else
        { s with reg := setTask s.reg n ⟨inst.id, true⟩,
                 trace := s.trace ++ [TaskEvent.finished n inst.id] }

/-- Run a sequence of supervisor operations. -/
def supExecOps (ops : List SupOp) (s : SupervisorState) : SupervisorState :=
  ops.foldl supExec s

/-- The supervisor before any operation. -/
def initSupervisor : SupervisorState :=
  { reg := [], isRunning := false, next := 0, trace := [] }

/-! Fine-grained model of two overlapping `restart_task` calls for the same
name.  `restart_task` is itself a coroutine: everything from its entry up to
`await self.tasks[task_name]` runs atomically, the await suspends until the
awaited instance finishes, and everything from the resumption through
`asyncio.create_task` runs atomically.  Two concurrent calls can both await
the same old instance and each create a replacement when resumed. -/

/-- Status of an `asyncio.Task` instance in the restart scenario. -/
structure ScenTask where
  id : ℕ
  cancelRequested : Bool
  finished : Bool
deriving DecidableEq, Repr

/-- Progress of one `restart_task` invocation. -/
inductive RestartPhase where
  | idle
  | awaiting (id : ℕ)
  | returned
deriving DecidableEq, Repr

/-- World state for two concurrent `restart_task("violation_polling")` calls:
the registry slot for the name, all task instances ever created, the two
coroutine phases, a fresh-id supply and the event trace. -/
structure RestartWorld where
  regId : ℕ
  instances : List ScenTask
  r1 : RestartPhase
  r2 : RestartPhase
  next : ℕ
  trace : List TaskEvent
deriving DecidableEq, Repr

/-- Scheduler steps: enter restart call 1 or 2, give a cancel-requested task
instance a turn so its CancelledError fires, or resume a suspended restart
call whose awaited instance has finished. -/
inductive RestartStep where
  | enter1
  | enter2
  | taskTurn (id : ℕ)
  | resume1
  | resume2
deriving DecidableEq, Repr

/-- Lookup of an instance by id. -/
def scenFind (w : RestartWorld) (id : ℕ) : Option ScenTask :=
  w.instances.find? (fun t => t.id == id)

/-- Mark the instance with the given id as cancel-requested. -/
def scenCancel (w : RestartWorld) (id : ℕ) : List ScenTask :=
  w.instances.map (fun t => if t.id == id then { t with cancelRequested := true } else t)

/-- Mark the instance with the given id as finished. -/
def scenFinish (w : RestartWorld) (id : ℕ) : List ScenTask :=
  w.instances.map (fun t => if t.id == id then { t with finished := true } else t)

/-- The restart name under test. -/
def vpName : String := "violation_polling"

/-- Synchronous prefix of `restart_task`: read `self.tasks[name]`; if it is
not done, cancel it and suspend awaiting it; if it is already done, proceed
straight to `create_task`, register the new instance, and return. -/
def restartEnter (w : RestartWorld) (phase : RestartPhase)
    (setPhase : RestartWorld → RestartPhase → RestartWorld) : RestartWorld :=
  match phase with
  | .idle =>
    match scenFind w w.regId with
    | none => w
    | some inst =>
      if inst.finished then
        let w1 := { w with
          regId := w.next
          instances := w.instances ++ [⟨w.next, false, false⟩]
          next := w.next + 1
          trace := w.trace ++ [TaskEvent.started vpName w.next] }
        setPhase w1 .returned
      else
        let w1 := { w with
          instances := scenCancel w inst.id
          trace := w.trace ++ [TaskEvent.cancelRequested vpName inst.id] }
        setPhase w1 (.awaiting inst.id)
  | _ => w

/-- Resumption of `restart_task` after its await: only enabled once the
awaited instance has finished; then `create_task` runs and the registry slot
is overwritten with the new instance. -/
def restartResume (w : RestartWorld) (phase : RestartPhase)
    (setPhase : RestartWorld → RestartPhase → RestartWorld) : RestartWorld :=
  match phase with
  | .awaiting id =>
    match scenFind w id with
    | some inst =>
      if inst.finished then
        let w1 := { w with
          regId := w.next
          instances := w.instances ++ [⟨w.next, false, false⟩]
          next := w.next + 1
          trace := w.trace ++ [TaskEvent.started vpName w.next] }
        setPhase w1 .returned
      else w
    | none => w
  | _ => w

/-- One scheduler step of the two-restart scenario. -/
def restartStep (w : RestartWorld) : RestartStep → RestartWorld
  | .enter1 => restartEnter w w.r1 (fun w1 p => { w1 with r1 := p })
  | .enter2 => restartEnter w w.r2 (fun w1 p => { w1 with r2 := p })
  | .taskTurn id =>
    match scenFind w id with
    | some inst =>
      if inst.cancelRequested && !inst.finished then
        { w with instances := scenFinish w id,
                 trace := w.trace ++ [TaskEvent.finished vpName id] }
      else w
    | none => w
  | .resume1 => restartResume w w.r1 (fun w1 p => { w1 with r1 := p })
  | .resume2 => restartResume w w.r2 (fun w1 p => { w1 with r2 := p })

/-- Run a schedule of steps. -/
def runRestartSchedule (steps : List RestartStep) (w : RestartWorld) : RestartWorld :=
  steps.foldl restartStep w

/-- Initial world: instance 0 is the running `violation_polling` task, both
restart calls are pending. -/
def initRestartWorld : RestartWorld :=
  { regId := 0
    instances := [⟨0, false, false⟩]
    r1 := .idle
    r2 := .idle
    next := 1
    trace := [TaskEvent.started vpName 0] }

/-! Embedding of `ConnectionManager.broadcast_to_violations` /
`broadcast_to_dashboard` (`app/routers/websocket.py`, lines 80-118) and
`disconnect` (lines 59-69). -/

/-- One WebSocket connection as the broadcast loop observes it: whether
`client_state == CONNECTED`, and whether `send_text` succeeds (raises
otherwise). -/
structure WsConn where
  id : ℕ
  connected : Bool
  sendOk : Bool
deriving DecidableEq, Repr

/-- A connection is delivered to when it is connected and its send does not
raise. -/
def wsLive (c : WsConn) : Bool := c.connected && c.sendOk

/-- The `ConnectionManager` registry (sets modelled as lists). -/
structure ConnManager where
  violationConnections : List WsConn
  dashboardConnections : List WsConn
  allConnections : List WsConn
deriving DecidableEq, Repr

/-- `disconnect`: discard the connection from every group. -/
def wsDisconnect (m : ConnManager) (c : WsConn) : ConnManager :=
  { violationConnections := m.violationConnections.filter (fun x => x != c)
    dashboardConnections := m.dashboardConnections.filter (fun x => x != c)
    allConnections := m.allConnections.filter (fun x => x != c) }

/-- The broadcast for-loop over a snapshot: sends to each connected
connection in turn; a raise or a non-connected state adds the connection to
the `disconnected` set and the loop continues.  Returns (delivered,
disconnected) in iteration order. -/
def broadcastLoop : List WsConn → List WsConn × List WsConn
  | [] => ([], [])
  | c :: rest =>
    let r := broadcastLoop rest
    if wsLive c then (c :: r.1, r.2) else (r.1, c :: r.2)

/-- Embedding of `broadcast_to_violations`: early return on an empty group,
otherwise run the loop over a snapshot of the group and then disconnect every
collected failure.  Returns the delivered connections and the new registry. -/
def broadcastToViolations (m : ConnManager) : List WsConn × ConnManager :=
  if m.violationConnections.isEmpty then ([], m)
  else
    let r := broadcastLoop m.violationConnections
    (r.1, r.2.foldl wsDisconnect m)

/-- Embedding of `broadcast_to_dashboard` (same shape over the dashboard
group). -/
def broadcastToDashboard (m : ConnManager) : List WsConn × ConnManager :=
  if m.dashboardConnections.isEmpty then ([], m)
  else
    let r := broadcastLoop m.dashboardConnections
    (r.1, r.2.foldl wsDisconnect m)

/-! Embedding of `BackgroundTaskManager._cache_cleanup_task`
(`app/services/background.py`, lines 204-227) together with the Python name
resolution of its body.  The module's global namespace is the list of its
imports and top-level definitions (lines 8-24 and the definitions below
them); `get_past_timestamp` is referenced at line 215 but is in neither the
module globals nor the builtins. -/

/-- Names bound in the global namespace of `app/services/background.py`:
its imports (including exactly `get_current_timestamp` and
`get_timestamp_ago` from `..utils.time`) and its top-level definitions. -/
def backgroundModuleGlobals : List String :=
  ["asyncio", "logging", "Dict", "Any", "Optional", "datetime", "timedelta",
   "DatabaseManager", "CacheManager",
   "ViolationQueries", "EmployeeQueries", "CameraQueries", "DashboardQueries",
   "get_current_timestamp", "get_timestamp_ago", "settings", "CacheKeys",
   "logger", "BackgroundTaskManager", "background_manager",
   "start_background_tasks", "stop_background_tasks",
   "get_background_status", "restart_background_task"]

/-- Observable actions of one cache-cleanup tick body, in program order. -/
inductive CleanupAction where
  | readMemoryInfo
  | computeCutoff
  | logCacheSize
  | cleanupOrphanedKeys
deriving DecidableEq, Repr

/-- The tick body: read the Redis memory info, then evaluate
`get_past_timestamp(days=7)` — Python resolves the name against the module
globals (and builtins) first, raising `NameError` when absent, in which case
the remaining statements (including the `_cleanup_orphaned_keys` call) never
run.  Returns the actions performed and the error, if any. -/
def cacheCleanupBody (globals : List String) :
    List CleanupAction × Option String :=
  if globals.contains "get_past_timestamp" then
    ([.readMemoryInfo, .computeCutoff, .logCacheSize, .cleanupOrphanedKeys], none)
  else
    ([.readMemoryInfo], some "NameError: name get_past_timestamp is not defined")

/-- One loop iteration: the body under `except Exception`, which logs the
error; the boolean is whether an error was logged. -/
def cacheCleanupTick (globals : List String) : List CleanupAction × Bool :=
  let r := cacheCleanupBody globals
  (r.1, r.2.isSome)

/-- `n` iterations of the cleanup loop (each tick ends in `asyncio.sleep` and
the loop continues): one entry per executed tick. -/
def runCacheCleanup (globals : List String) : ℕ → List (List CleanupAction × Bool)
  | 0 => []
  | Nat.succ k => cacheCleanupTick globals :: runCacheCleanup globals k

/-! Auxiliary notions and concrete inputs used by the theorems below. -/

/-- The alive-instance list the registry itself accounts for: the registered
instance of `n`, unless it is done. -/
def regAlive (reg : List (String × TaskInst)) (n : String) : List ℕ :=
  match lookupTask reg n with
  | some inst => if inst.done then [] else [inst.id]
  | none => []

/-- Invariant tying the supervisor registry to its event trace: the trace's
alive instances per name are exactly what the registry records, every prefix
of the trace has at most one alive instance per name, a stopped supervisor
has an empty registry, and registry names are unique. -/
def SupInv (s : SupervisorState) : Prop :=
  (∀ n, aliveIds s.trace n = regAlive s.reg n)
  ∧ (∀ t, t <+: s.trace → ∀ n, (aliveIds t n).length ≤ 1)
  ∧ (s.isRunning = false → s.reg = [])
  ∧ (s.reg.map (fun p => p.1)).Nodup

/-- Two phone detections sharing one `source_id` (Frigate timeline rows of a
single tracked object share their `source_id`): first row. -/
def c1DetA : Detection :=
  ⟨100, "cam_a", "cell phone", none, [], "tracked_object", "evt1"⟩

/-- Second phone detection with the same `source_id` as `c1DetA`. -/
def c1DetB : Detection :=
  ⟨200, "cam_a", "cell phone", none, [], "tracked_object", "evt1"⟩

/-- A phone detection with no zones. -/
def c2Phone : Detection :=
  ⟨100, "cam_a", "cell phone", none, [], "tracked_object", "evt_p"⟩

/-- A face detection for Bob with score 0.9, one second after `c2Phone` on
the same camera. -/
def c2Face : Detection :=
  ⟨101, "cam_a", "face", some ("Bob", 9 / 10), [], "tracked_object", "evt_f"⟩

/-- Phone detection in zone `desk_2`, sharing its `source_id` with `c4DetB`. -/
def c4DetA : Detection :=
  ⟨100, "cam_a", "cell phone", none, ["desk_2"], "tracked_object", "evt1"⟩

/-- Phone detection whose primary zone `desk_1` is desk-assigned, sharing its
`source_id` with `c4DetA`. -/
def c4DetB : Detection :=
  ⟨200, "cam_a", "cell phone", none, ["desk_1"], "tracked_object", "evt1"⟩

/-- A lone phone detection whose primary zone `desk_1` is desk-assigned. -/
def c4Solo : Detection :=
  ⟨100, "cam_a", "cell phone", none, ["desk_1"], "tracked_object", "evt9"⟩

/-! Helper lemmas about `get_live_violations`. -/

theorem mkViolationRecord_id (rows : List Detection) (v : Detection) :
    (mkViolationRecord rows v).id = v.sourceId := rfl

theorem getLiveViolations_map_id (detections : List Detection)
    (camera : Option String) (hours limit : ℕ) (now : ℚ) :
    (getLiveViolations detections camera hours limit now).map (fun r => r.id)
      = ((List.insertionSort tsDesc (violationZones detections camera hours now)).take
          limit).map (fun v => v.sourceId) := by
  unfold getLiveViolations
  rw [List.map_map]
  rfl

theorem getLiveViolations_mem (detections : List Detection)
    (camera : Option String) (hours limit : ℕ) (now : ℚ) (r : ViolationRecord)
    (hr : r ∈ getLiveViolations detections camera hours limit now) :
    ∃ v, v ∈ violationZones detections camera hours now
      ∧ r = mkViolationRecord (violationZones detections camera hours now) v := by
  unfold getLiveViolations at hr
  obtain ⟨v, hv, hr⟩ := List.mem_map.1 hr
  refine ⟨v, ?_, hr.symm⟩
  have hv2 := List.mem_of_mem_take hv
  exact ((List.perm_insertionSort tsDesc _).mem_iff).1 hv2

/-- C1 (amended): each phone Detection row in the window yields at most one
output record of `get_live_violations` (no fan-out from multiple matching
desk zones), and when the phone rows in the window carry pairwise-distinct
`source_id`s no two result records share a violation id.  (Two timeline rows
that share a `source_id` each yield a record with that id, so distinctness of
the input ids is required; see the counterexample.) -/
theorem getLiveViolations_nodup_ids (detections : List Detection)
    (camera : Option String) (hours limit : ℕ) (now : ℚ)
    (hn : ((violationZones detections camera hours now).map
      (fun p => p.sourceId)).Nodup) :
    (((getLiveViolations detections camera hours limit now).map
        (fun r => r.id)).Nodup)
    ∧ (getLiveViolations detections camera hours limit now).length
        ≤ (violationZones detections camera hours now).length := by
  have hperm := List.perm_insertionSort tsDesc
    (violationZones detections camera hours now)
  constructor
  · rw [getLiveViolations_map_id]
    have hsorted : ((List.insertionSort tsDesc
        (violationZones detections camera hours now)).map
          (fun v => v.sourceId)).Nodup :=
      ((hperm.map (fun v => v.sourceId)).nodup_iff).2 hn
    have htake := List.map_take (fun v : Detection => v.sourceId)
      (List.insertionSort tsDesc (violationZones detections camera hours now)) limit
    rw [htake]
    exact hsorted.sublist (List.take_sublist _ _)
  · unfold getLiveViolations
    rw [List.length_map, List.length_take, hperm.length_eq]
    exact min_le_right _ _

section DecideRat

attribute [local semireducible] Rat.add Rat.sub Rat.mul Rat.inv

/-- C1 (counterexample): with two phone detections that share `source_id`
`evt1` — as consecutive timeline rows of one tracked object do — the result
of `get_live_violations` contains two records with the same violation id. -/
theorem getLiveViolations_dup_ids_counterexample :
    ¬ (((getLiveViolations [c1DetA, c1DetB] none 1 50 1000).map
      (fun r => r.id)).Nodup) := by decide

/-- Witness for C1: a concrete input with distinct ids satisfying the
hypothesis of `getLiveViolations_nodup_ids`. -/
theorem getLiveViolations_nodup_ids_witness :
    (((violationZones [c2Phone] none 1 1000).map (fun p => p.sourceId)).Nodup)
    ∧ (((getLiveViolations [c2Phone] none 1 50 1000).map
        (fun r => r.id)).Nodup) := by
  refine ⟨by decide, ?_⟩
  exact (getLiveViolations_nodup_ids [c2Phone] none 1 50 1000 (by decide)).1

end DecideRat

/-- C2 (amended): a phone detection with no desk-matching zone is attributed
`Unknown` with confidence 0 by `get_live_violations`, regardless of any
face/person detections near it in time — the query's attribution reads only
the desk table (face verification is removed from this query). -/
theorem getLiveViolations_unknown_without_desk (detections : List Detection)
    (camera : Option String) (hours limit : ℕ) (now : ℚ) (r : ViolationRecord)
    (hr : r ∈ getLiveViolations detections camera hours limit now)
    (hz : ∀ p ∈ violationZones detections camera hours now,
      p.sourceId = r.id → p.zones.find? zoneMatches = none) :
    r.employeeName = "Unknown" ∧ r.confidence = 0 := by
  obtain ⟨v, hv, rfl⟩ := getLiveViolations_mem _ _ _ _ _ _ hr
  have hattr : deskAttribution (violationZones detections camera hours now)
      v.sourceId = none := by
    rw [deskAttribution, List.findSome?_eq_none_iff]
    intro p hp
    by_cases hps : p.sourceId = v.sourceId
    · have hfind := hz p hp hps
      simp [hps, hfind]
    · simp [hps]
  simp [mkViolationRecord, hattr]

section DecideRatB

attribute [local semireducible] Rat.add Rat.sub Rat.mul Rat.inv

/-- C2 (counterexample): a zoneless phone detection with a face detection for
Bob (score 0.9) one second away on the same camera — within the default
3-second face window — is still attributed `Unknown` with confidence 0, not
`Bob` with 0.9: `get_live_violations` performs no face-proximity fallback. -/
theorem getLiveViolations_no_face_fallback_counterexample :
    ((getLiveViolations [c2Phone, c2Face] none 1 50 1000).map
        (fun r => (r.employeeName, r.confidence))) = [("Unknown", 0)]
    ∧ c2Face.subLabel = some ("Bob", 9 / 10)
    ∧ c2Face.camera = c2Phone.camera
    ∧ |c2Face.timestamp - c2Phone.timestamp| < faceDetectionWindow
    ∧ ("Unknown" : String) ≠ "Bob" := by
  refine ⟨by decide, rfl, rfl, by decide, by decide⟩

/-- Witness for C2: the Bob scenario, with the amended theorem applied to the
record the query actually returns. -/
theorem getLiveViolations_unknown_without_desk_witness :
    ((getLiveViolations [c2Phone, c2Face] none 1 50 1000).headI).employeeName
        = "Unknown"
    ∧ ((getLiveViolations [c2Phone, c2Face] none 1 50 1000).headI).confidence
        = 0 :=
  getLiveViolations_unknown_without_desk [c2Phone, c2Face] none 1 50 1000
    ((getLiveViolations [c2Phone, c2Face] none 1 50 1000).headI)
    (by decide) (by decide)

end DecideRatB

theorem deskAssignments_like : ∀ p ∈ deskAssignments, likeDeskPattern p.1 = true := by
  decide

theorem zoneMatches_of_lookup (z nm : String) (h : lookupDesk z = some nm) :
    zoneMatches z = true := by
  have hlike : likeDeskPattern z = true := by
    rw [lookupDesk] at h
    obtain ⟨p, hp, hpz⟩ := Option.map_eq_some'.1 h
    have hmem := List.mem_of_find?_eq_some hp
    have heq : p.1 = z := by
      have := List.find?_some hp
      exact eq_of_beq this
    rw [← heq]
    exact deskAssignments_like p hmem
  rw [zoneMatches, hlike, h]
  rfl

theorem deskAttribution_of_unshared (rows : List Detection) (d : Detection)
    (hmem : d ∈ rows)
    (huniq : ∀ p ∈ rows, p.sourceId = d.sourceId → p = d) :
    deskAttribution rows d.sourceId
      = (d.zones.find? zoneMatches).bind lookupDesk := by
  induction rows with
  | nil => cases hmem
  | cons p rest ih =>
    cases hps : p.sourceId == d.sourceId
    · have hne : p.sourceId ≠ d.sourceId := by
        intro hcontra
        rw [hcontra] at hps
        simp at hps
      have hmemRest : d ∈ rest := by
        rcases List.mem_cons.1 hmem with heq | hmemRest
        · exact absurd (heq ▸ rfl) hne
        · exact hmemRest
      rw [deskAttribution, List.findSome?_cons]
      simp only [hps]
      exact ih hmemRest (fun q hq => huniq q (List.mem_cons_of_mem p hq))
    · have hpd : p = d := huniq p (List.mem_cons_self p rest) (eq_of_beq hps)
      subst hpd
      rw [deskAttribution, List.findSome?_cons]
      simp only [hps]
      cases hfz : (p.zones.find? zoneMatches).bind lookupDesk with
      | none =>
        have hforall : List.findSome? (fun q =>
            if q.sourceId == p.sourceId then (q.zones.find? zoneMatches).bind lookupDesk
            else none) rest = none := by
          rw [List.findSome?_eq_none_iff]
          intro q hq
          cases hqs : q.sourceId == p.sourceId
          · simp [hqs]
          · have hqp : q = p := huniq q (List.mem_cons_of_mem p hq) (eq_of_beq hqs)
            subst hqp
            simp [hqs, hfz]
        simpa [hfz] using hforall
      | some nm => simp [hfz]

/-- C4 (amended): if a phone detection in the window has its primary zone
`zones[0]` present in the desk table and no other phone row in the window
shares its `source_id`, then every result record with that violation id is
attributed the mapped employee with confidence exactly 1, regardless of any
face/person detections near it in time.  (When another row shares the id,
the `DISTINCT ON (vz.id)` pick may take the other row's zone instead; see
the counterexample.) -/
theorem getLiveViolations_desk_priority (detections : List Detection)
    (camera : Option String) (hours limit : ℕ) (now : ℚ)
    (d : Detection) (z nm : String) (r : ViolationRecord)
    (hd : d ∈ violationZones detections camera hours now)
    (huniq : ∀ p ∈ violationZones detections camera hours now,
      p.sourceId = d.sourceId → p = d)
    (hz : d.zones.head? = some z)
    (hnm : lookupDesk z = some nm)
    (hr : r ∈ getLiveViolations detections camera hours limit now)
    (hid : r.id = d.sourceId) :
    r.employeeName = nm ∧ r.confidence = 1 := by
  obtain ⟨v, hv, rfl⟩ := getLiveViolations_mem _ _ _ _ _ _ hr
  have hvd : v.sourceId = d.sourceId := hid
  have hfind : d.zones.find? zoneMatches = some z := by
    cases hzs : d.zones with
    | nil => rw [hzs] at hz; cases hz
    | cons a t =>
      rw [hzs] at hz
      have ha : a = z := by
        simpa using hz
      subst ha
      exact List.find?_cons_of_pos _ (zoneMatches_of_lookup a nm hnm)
  have hattr : deskAttribution (violationZones detections camera hours now)
      d.sourceId = some nm := by
    rw [deskAttribution_of_unshared _ d hd huniq, hfind]
    simpa using hnm
  constructor
  · show (deskAttribution _ v.sourceId).getD "Unknown" = nm
    rw [hvd, hattr]
    rfl
  · show (if (deskAttribution _ v.sourceId).isSome then (1 : ℚ) else 0) = 1
    rw [hvd, hattr]
    rfl

section DecideRatC

attribute [local semireducible] Rat.add Rat.sub Rat.mul Rat.inv

/-- C4 (counterexample): two phone rows share `source_id` `evt1`; the second
one's primary zone `desk_1` maps to Safia Imtiaz, yet both result records
carry Kinza Amin — the attribution that the `DISTINCT ON (vz.id)` subquery
kept came from the other row's zone `desk_2`.  The claim's conclusion
`employee_name = mapped employee of zones[0]` fails for the `desk_1` row. -/
theorem getLiveViolations_desk_priority_counterexample :
    ((getLiveViolations [c4DetA, c4DetB] none 1 50 1000).map
        (fun r => (r.id, r.employeeName, r.confidence)))
      = [("evt1", "Kinza Amin", 1), ("evt1", "Kinza Amin", 1)]
    ∧ c4DetB ∈ violationZones [c4DetA, c4DetB] none 1 1000
    ∧ c4DetB.zones.head? = some "desk_1"
    ∧ lookupDesk "desk_1" = some "Safia Imtiaz"
    ∧ ("Kinza Amin" : String) ≠ "Safia Imtiaz" := by
  refine ⟨by decide, by decide, rfl, by decide, by decide⟩

/-- Witness for C4: a lone phone detection in assigned zone `desk_1` is
attributed its desk's employee with confidence 1. -/
theorem getLiveViolations_desk_priority_witness :
    ((getLiveViolations [c4Solo] none 1 50 1000).headI).employeeName
        = "Safia Imtiaz"
    ∧ ((getLiveViolations [c4Solo] none 1 50 1000).headI).confidence = 1 :=
  getLiveViolations_desk_priority [c4Solo] none 1 50 1000 c4Solo "desk_1"
    "Safia Imtiaz" ((getLiveViolations [c4Solo] none 1 50 1000).headI)
    (by decide) (by decide) rfl (by decide) (by decide) (by decide)

end DecideRatC

/-! Helper lemmas about `get_hourly_trend`. -/

theorem genSeries_pairwise (start stop step : ℚ) (hstep : 0 < step) :
    List.Pairwise (fun a b => a < b) (genSeries start stop step) := by
  rw [genSeries, if_neg (not_le.2 hstep)]
  split
  · exact List.Pairwise.nil
  · rw [List.pairwise_map]
    refine (List.pairwise_lt_range _).imp ?_
    intro a b hab
    have hc : (a : ℚ) < (b : ℚ) := by exact_mod_cast hab
    have := mul_lt_mul_of_pos_right hc hstep
    linarith

theorem genSeries_length (start stop : ℚ) (h : start ≤ stop) :
    (genSeries start stop 3600).length = (⌊(stop - start) / 3600⌋).toNat + 1 := by
  rw [genSeries, if_neg (by norm_num), if_neg (not_lt.2 h)]
  rw [List.length_map, List.length_range]

theorem hourlyTrend_length (detections : List Detection) (now : ℚ) :
    (getHourlyTrend detections now 24).length
      = if now ≤ ((round now : ℤ) : ℚ) then 25 else 24 := by
  have hd := abs_le.1 (abs_sub_round now)
  have hub : ((round now : ℤ) : ℚ) ≤ now + 1 / 2 := by linarith [hd.1]
  have hlb : now - 1 / 2 ≤ ((round now : ℤ) : ℚ) := by linarith [hd.2]
  have hss : now - ((24 : ℕ) : ℚ) * 3600 ≤ ((round now : ℤ) : ℚ) := by
    push_cast
    linarith
  simp only [getHourlyTrend]
  rw [List.length_map, List.length_reverse, genSeries_length _ _ hss]
  have harith : (((round now : ℤ) : ℚ) - (now - ((24 : ℕ) : ℚ) * 3600)) / 3600
      = (((round now : ℤ) : ℚ) - now) / 3600 + ((24 : ℤ) : ℚ) := by
    push_cast
    ring
  rw [harith, Int.floor_add_int]
  by_cases hcase : now ≤ ((round now : ℤ) : ℚ)
  · have h0 : ⌊(((round now : ℤ) : ℚ) - now) / 3600⌋ = 0 := by
      rw [Int.floor_eq_zero_iff]
      constructor
      · exact div_nonneg (by linarith) (by norm_num)
      · rw [div_lt_one (by norm_num)]
        linarith
    rw [h0, if_pos hcase]
    rfl
  · have h0 : ⌊(((round now : ℤ) : ℚ) - now) / 3600⌋ = -1 := by
      have hneg : (((round now : ℤ) : ℚ) - now) / 3600 < 0 :=
        div_neg_of_neg_of_pos (by linarith [not_le.1 hcase]) (by norm_num)
      have hge : (-1 : ℚ) ≤ (((round now : ℤ) : ℚ) - now) / 3600 := by
        rw [le_div_iff₀ (by norm_num : (0 : ℚ) < 3600)]
        linarith
      rw [Int.floor_eq_iff]
      constructor
      · push_cast
        exact hge
      · push_cast
        linarith
    rw [h0, if_neg hcase]
    rfl

theorem hourlyTrend_sorted (detections : List Detection) (now : ℚ) (hours : ℕ) :
    List.Pairwise (fun a b : HourlyBucket => b.hour < a.hour)
      (getHourlyTrend detections now hours) := by
  simp only [getHourlyTrend]
  rw [List.pairwise_map]
  exact List.pairwise_reverse.2
    (genSeries_pairwise (now - (hours : ℚ) * 3600) ((round now : ℤ) : ℚ) 3600
      (by norm_num))

theorem hourlyTrend_zero_fill (detections : List Detection) (now : ℚ) (hours : ℕ) :
    ∀ b ∈ getHourlyTrend detections now hours,
      (hourlyViolationRows detections now hours).countP (fun r => r.1 == b.hour) = 0
        → b.violations = 0 := by
  intro b hb h0
  simp only [getHourlyTrend] at hb
  obtain ⟨h, hh, rfl⟩ := List.mem_map.1 hb
  show ((hourlyViolationRows detections now hours).filter (fun r => r.1 == h)).length = 0
  rw [List.countP_eq_length_filter] at h0
  exact h0

/-- C3 (amended): for `hours = 24` the trend has 25 buckets whenever
`round(now) ≥ now` (in particular whenever the epoch has no fractional part,
as `generate_series(now - 86400, round(now), 3600)` then includes both
endpoints) and 24 buckets otherwise; buckets are strictly ordered
newest-first (each bucket value appears exactly once), and any bucket with no
violation row on its exact bucket value has violation count 0. -/
theorem getHourlyTrend_shape (detections : List Detection) (now : ℚ) :
    ((getHourlyTrend detections now 24).length
        = if now ≤ ((round now : ℤ) : ℚ) then 25 else 24)
    ∧ List.Pairwise (fun a b : HourlyBucket => b.hour < a.hour)
        (getHourlyTrend detections now 24)
    ∧ ∀ b ∈ getHourlyTrend detections now 24,
        (hourlyViolationRows detections now 24).countP (fun r => r.1 == b.hour) = 0
          → b.violations = 0 :=
  ⟨hourlyTrend_length detections now, hourlyTrend_sorted detections now 24,
    hourlyTrend_zero_fill detections now 24⟩

section DecideRatD

attribute [local semireducible] Rat.add Rat.sub Rat.mul Rat.inv

/-- C3 (counterexample): at an integral `now` the hourly trend with
`hours = 24` returns 25 buckets, not the claimed 24 —
`generate_series(now - 86400, now, 3600)` is inclusive of both endpoints. -/
theorem getHourlyTrend_25_buckets_counterexample :
    (getHourlyTrend [] 100000 24).length = 25
    ∧ (getHourlyTrend [] 100000 24).length ≠ 24 := by
  exact ⟨by decide, by decide⟩

/-- Witness for C3: the zero-fill clause applied to the newest bucket of a
concrete trend. -/
theorem getHourlyTrend_shape_witness :
    ((getHourlyTrend [] 100000 24).headI).violations = 0 :=
  (getHourlyTrend_shape [] 100000).2.2 ((getHourlyTrend [] 100000 24).headI)
    (by decide) (by decide)

end DecideRatD

/-! Helper lemmas about the `get_or_set` interleaving model.  A caller phase
is pending while the caller may still reach the refresh call. -/

theorem stepAt_countP_bound (result : ℕ) :
    ∀ (callers : List CallerPhase) (i : ℕ) (cache : Option ℕ),
      (stepAt result callers i cache).2.2
          + (stepAt result callers i cache).1.countP
              (fun ph => ph == .ready || ph == .missed)
        ≤ callers.countP (fun ph => ph == .ready || ph == .missed) := by
  intro callers
  induction callers with
  | nil => intro i cache; simp [stepAt]
  | cons ph rest ih =>
    intro i cache
    cases i with
    | zero =>
      cases ph <;> cases cache <;>
        simp [stepAt, phaseStep, List.countP_cons] <;> omega
    | succ j =>
      have := ih j cache
      simp only [stepAt, List.countP_cons]
      omega

theorem runGetOrSet_measure (result : ℕ) (sched : List ℕ) :
    ∀ s : SingleFlightState,
      (runGetOrSet result sched s).refreshCount
          + (runGetOrSet result sched s).callers.countP
              (fun ph => ph == .ready || ph == .missed)
        ≤ s.refreshCount
            + s.callers.countP (fun ph => ph == .ready || ph == .missed) := by
  induction sched with
  | nil => intro s; simp [runGetOrSet]
  | cons i rest ih =>
    intro s
    have h1 := ih (sfStep result s i)
    have h2 := stepAt_countP_bound result s.callers i s.cache
    have h3 : (sfStep result s i).refreshCount
          + (sfStep result s i).callers.countP
              (fun ph => ph == .ready || ph == .missed)
        ≤ s.refreshCount
            + s.callers.countP (fun ph => ph == .ready || ph == .missed) := by
      simp only [sfStep]
      omega
    calc (runGetOrSet result (i :: rest) s).refreshCount
          + (runGetOrSet result (i :: rest) s).callers.countP
              (fun ph => ph == .ready || ph == .missed)
        = (runGetOrSet result rest (sfStep result s i)).refreshCount
          + (runGetOrSet result rest (sfStep result s i)).callers.countP
              (fun ph => ph == .ready || ph == .missed) := rfl
      _ ≤ _ := le_trans h1 h3

theorem countP_replicate_ready (n : ℕ) :
    (List.replicate n CallerPhase.ready).countP
      (fun ph => ph == .ready || ph == .missed) = n := by
  induction n with
  | zero => rfl
  | succ k ih => simp [List.replicate_succ, List.countP_cons, ih]

/-- C5 (amended): `get_or_set` takes no lock, so with the key absent every
caller that observes the miss runs the refresh function itself: `n`
interleaved callers trigger at most `n` refresh executions (not at most 1),
and a caller that completes alone triggers exactly one. -/
theorem getOrSet_refresh_bound (result n : ℕ) (sched : List ℕ) :
    (runGetOrSet result sched (initSingleFlight n)).refreshCount ≤ n
    ∧ (1 ≤ n →
        (runGetOrSet result [0, 0, 0] (initSingleFlight n)).refreshCount = 1) := by
  constructor
  · have h := runGetOrSet_measure result sched (initSingleFlight n)
    have h0 : (initSingleFlight n).refreshCount
        + (initSingleFlight n).callers.countP
            (fun ph => ph == .ready || ph == .missed) = n := by
      simp [initSingleFlight, countP_replicate_ready]
    omega
  · intro hn
    obtain ⟨m, rfl⟩ : ∃ m, n = m + 1 := ⟨n - 1, by omega⟩
    rfl

/-- C5 (counterexample): two callers interleaved on an absent key — both read
the cache before either writes — each execute the refresh function: 2
executions, not the claimed exactly 1. -/
theorem getOrSet_double_refresh_counterexample :
    (runGetOrSet 7 [0, 1, 0, 1, 0, 1] (initSingleFlight 2)).refreshCount = 2
    ∧ (runGetOrSet 7 [0, 1, 0, 1, 0, 1] (initSingleFlight 2)).refreshCount ≠ 1 := by
  exact ⟨rfl, by decide⟩

/-- Witness for C5: the bound applied at two callers, and the single-caller
schedule refreshing exactly once. -/
theorem getOrSet_refresh_bound_witness :
    (runGetOrSet 7 [0, 1, 0, 1, 0, 1] (initSingleFlight 2)).refreshCount ≤ 2
    ∧ (runGetOrSet 7 [0, 0, 0] (initSingleFlight 2)).refreshCount = 1 :=
  ⟨(getOrSet_refresh_bound 7 2 [0, 1, 0, 1, 0, 1]).1,
    (getOrSet_refresh_bound 7 2 []).2 (by decide)⟩

/-- C6 (amended): `CacheManager` records no write-time TTL of its own — hit
versus miss is decided entirely by the backing store.  After `set` with a
nonzero ttl, a later `get` returns the stale value at any read time as long
as the store still serves the entry, and returns a miss once the store
enforces the `SETEX` deadline. -/
theorem cacheManager_storage_decides (st : RedisStore) (k v : String)
    (ttl now now2 : ℚ) (h0 : ttl ≠ 0) (h2 : now + ttl ≤ now2) :
    cacheManagerGet true false (cacheManagerSet true st now k v (some ttl)) k now2
        = some v
    ∧ cacheManagerGet true true (cacheManagerSet true st now k v (some ttl)) k now2
        = none := by
  have hbeq : (ttl == (0 : ℚ)) = false := by
    simpa using h0
  constructor
  · simp [cacheManagerGet, cacheManagerSet, hbeq, redisSetex, redisGet, redisLookup]
  · simp [cacheManagerGet, cacheManagerSet, hbeq, redisSetex, redisGet, redisLookup,
      h2]

section DecideRatE

attribute [local semireducible] Rat.add Rat.sub Rat.mul Rat.inv

/-- C6 (counterexample): a value written at time 0 with ttl 10 and read at
time 100 — long past the recorded TTL — is still returned as a hit when the
backing store has not yet evicted (not enforced expiry on) the entry: the
semantic layer performs no TTL check of its own, contradicting the claimed
miss. -/
theorem cacheManager_stale_hit_counterexample :
    cacheManagerGet true false
        (cacheManagerSet true [] 0 "k" "v" (some 10)) "k" 100 = some "v"
    ∧ cacheManagerGet true false
        (cacheManagerSet true [] 0 "k" "v" (some 10)) "k" 100 ≠ none
    ∧ (0 : ℚ) + 10 < 100 := by
  exact ⟨rfl, by decide, by decide⟩

/-- Witness for C6: the amended theorem at concrete values. -/
theorem cacheManager_storage_decides_witness :
    cacheManagerGet true false
        (cacheManagerSet true [] 0 "k" "v" (some 10)) "k" 100 = some "v"
    ∧ cacheManagerGet true true
        (cacheManagerSet true [] 0 "k" "v" (some 10)) "k" 100 = none :=
  cacheManager_storage_decides [] "k" "v" 10 0 100 (by norm_num) (by norm_num)

end DecideRatE

theorem runViolationPolling_log_length :
    ∀ (os : List PollTickOracle) (c : PollCache),
      (runViolationPolling os c).2.length = os.length := by
  intro os
  induction os with
  | nil => intro c; rfl
  | cons o rest ih =>
    intro c
    simp only [runViolationPolling, List.length_cons]
    rw [ih]

/-- C7 (confirmed): when the correlation query (`get_live_violations`) raises
in a polling tick, that tick leaves the cache untouched — neither the
live-violations key nor the hourly-trend key is written, so the previously
cached values remain — the error is logged (not propagated), and the loop
still executes every subsequent tick. -/
theorem violationPolling_error_tick (o : PollTickOracle) (c : PollCache)
    (os : List PollTickOracle) (h : o.live = .error ()) :
    (violationPollingTick o c).1 = c
    ∧ (violationPollingTick o c).2 = true
    ∧ (runViolationPolling (o :: os) c).2.length = os.length + 1 := by
  refine ⟨?_, ?_, ?_⟩
  · simp [violationPollingTick, h]
  · simp [violationPollingTick, h]
  · rw [runViolationPolling_log_length (o :: os) c]
    rfl

/-- Witness for C7: a concrete failing tick. -/
theorem violationPolling_error_tick_witness :
    (violationPollingTick ⟨Except.error (), Except.ok []⟩
        ⟨some [], none⟩).1 = ⟨some [], none⟩
    ∧ (violationPollingTick ⟨Except.error (), Except.ok []⟩
        ⟨some [], none⟩).2 = true :=
  ⟨(violationPolling_error_tick ⟨Except.error (), Except.ok []⟩
      ⟨some [], none⟩ [] rfl).1,
    (violationPolling_error_tick ⟨Except.error (), Except.ok []⟩
      ⟨some [], none⟩ [] rfl).2.1⟩

/-! Helper lemmas about the broadcast loops. -/

theorem broadcastLoop_eq : ∀ l : List WsConn,
    broadcastLoop l = (l.filter wsLive, l.filter (fun c => !(wsLive c))) := by
  intro l
  induction l with
  | nil => rfl
  | cons c rest ih =>
    cases hc : wsLive c <;> simp [broadcastLoop, ih, List.filter_cons, hc]

theorem foldl_wsDisconnect : ∀ (dead : List WsConn) (m : ConnManager),
    dead.foldl wsDisconnect m
      = { violationConnections :=
            m.violationConnections.filter (fun c => !(dead.contains c))
          dashboardConnections :=
            m.dashboardConnections.filter (fun c => !(dead.contains c))
          allConnections :=
            m.allConnections.filter (fun c => !(dead.contains c)) } := by
  intro dead
  induction dead with
  | nil => intro m; simp
  | cons d ds ih =>
    intro m
    have hpred : (fun c => !((d :: ds).contains c))
        = (fun a => !(ds.contains a) && (a != d)) := by
      funext c
      simp [List.contains_cons, Bool.not_or, bne, Bool.and_comm]
      rfl
    calc (d :: ds).foldl wsDisconnect m = ds.foldl wsDisconnect (wsDisconnect m d) := rfl
      _ = _ := by
          rw [ih (wsDisconnect m d)]
          simp only [wsDisconnect, List.filter_filter, hpred]

/-- C9 (confirmed): a broadcast delivers to exactly the connections that are
connected and whose send succeeds — one dead connection neither aborts
delivery to the rest nor survives in the group — and the group registry
afterwards retains exactly the live connections. -/
theorem broadcast_fault_isolation (m : ConnManager) :
    (broadcastToViolations m).1 = m.violationConnections.filter wsLive
    ∧ (broadcastToViolations m).2.violationConnections
        = m.violationConnections.filter wsLive
    ∧ (broadcastToDashboard m).1 = m.dashboardConnections.filter wsLive
    ∧ (broadcastToDashboard m).2.dashboardConnections
        = m.dashboardConnections.filter wsLive := by
  have hdeadlive : ∀ (l : List WsConn) (c : WsConn), c ∈ l →
      (!( (l.filter (fun x => !(wsLive x))).contains c)) = wsLive c := by
    intro l c hc
    cases hlive : wsLive c
    · have hmem : c ∈ l.filter (fun x => !(wsLive x)) :=
        List.mem_filter.2 ⟨hc, by simp [hlive]⟩
      have : (l.filter (fun x => !(wsLive x))).contains c = true := by
        exact List.elem_eq_true_of_mem hmem
      rw [this]
      rfl
    · cases hcont : (l.filter (fun x => !(wsLive x))).contains c
      · rfl
      · have hmem : c ∈ l.filter (fun x => !(wsLive x)) := by
          exact List.mem_of_elem_eq_true hcont
        have := (List.mem_filter.1 hmem).2
        rw [hlive] at this
        cases this
  refine ⟨?_, ?_, ?_, ?_⟩
  · rw [broadcastToViolations]
    by_cases he : m.violationConnections.isEmpty
    · rw [if_pos he]
      rw [List.isEmpty_iff.1 he]
      rfl
    · rw [if_neg he, broadcastLoop_eq]
  · rw [broadcastToViolations]
    by_cases he : m.violationConnections.isEmpty
    · rw [if_pos he]
      rw [List.isEmpty_iff.1 he]
      rfl
    · rw [if_neg he, broadcastLoop_eq]
      show ((m.violationConnections.filter (fun c => !(wsLive c))).foldl
        wsDisconnect m).violationConnections = _
      rw [foldl_wsDisconnect]
      exact List.filter_congr (fun c hc => hdeadlive m.violationConnections c hc)
  · rw [broadcastToDashboard]
    by_cases he : m.dashboardConnections.isEmpty
    · rw [if_pos he]
      rw [List.isEmpty_iff.1 he]
      rfl
    · rw [if_neg he, broadcastLoop_eq]
  · rw [broadcastToDashboard]
    by_cases he : m.dashboardConnections.isEmpty
    · rw [if_pos he]
      rw [List.isEmpty_iff.1 he]
      rfl
    · rw [if_neg he, broadcastLoop_eq]
      show ((m.dashboardConnections.filter (fun c => !(wsLive c))).foldl
        wsDisconnect m).dashboardConnections = _
      rw [foldl_wsDisconnect]
      exact List.filter_congr (fun c hc => hdeadlive m.dashboardConnections c hc)

theorem runCacheCleanup_eq_replicate (globals : List String) :
    ∀ n : ℕ, runCacheCleanup globals n = List.replicate n (cacheCleanupTick globals) := by
  intro n
  induction n with
  | zero => rfl
  | succ k ih => simp [runCacheCleanup, List.replicate_succ, ih]

/-- C10 (confirmed): `get_past_timestamp` is bound nowhere in the module
(`..utils.time` contributes only `get_current_timestamp` and
`get_timestamp_ago`), so every cache-cleanup tick raises `NameError` before
any cleanup action: `_cleanup_orphaned_keys` is never reached, the exception
is caught and logged, and the loop keeps executing its ticks. -/
theorem cacheCleanup_never_cleans (n : ℕ) :
    backgroundModuleGlobals.contains "get_past_timestamp" = false
    ∧ (runCacheCleanup backgroundModuleGlobals n).length = n
    ∧ ∀ tick ∈ runCacheCleanup backgroundModuleGlobals n,
        tick.2 = true ∧ CleanupAction.cleanupOrphanedKeys ∉ tick.1 := by
  refine ⟨by decide, ?_, ?_⟩
  · rw [runCacheCleanup_eq_replicate]
    exact List.length_replicate _ _
  · intro tick htick
    rw [runCacheCleanup_eq_replicate] at htick
    have heq := (List.eq_of_mem_replicate htick)
    rw [heq]
    exact ⟨by decide, by decide⟩

/-- Witness for C10: the tick outcome itself, via the theorem at one tick. -/
theorem cacheCleanup_never_cleans_witness :
    (cacheCleanupTick backgroundModuleGlobals).2 = true
    ∧ CleanupAction.cleanupOrphanedKeys ∉ (cacheCleanupTick backgroundModuleGlobals).1 :=
  (cacheCleanup_never_cleans 1).2.2 (cacheCleanupTick backgroundModuleGlobals)
    (by decide)

/-! Helper lemmas for the supervisor trace model. -/

theorem aliveIds_append (t u : List TaskEvent) (n : String) :
    aliveIds (t ++ u) n = u.foldl (aliveStep n) (aliveIds t n) := by
  rw [aliveIds, aliveIds, List.foldl_append]

theorem aliveIds_snoc_started (t : List TaskEvent) (m : String) (id : ℕ)
    (n : String) :
    aliveIds (t ++ [TaskEvent.started m id]) n
      = if m == n then aliveIds t n ++ [id] else aliveIds t n := by
  rw [aliveIds_append]
  rfl

theorem aliveIds_snoc_finished (t : List TaskEvent) (m : String) (id : ℕ)
    (n : String) :
    aliveIds (t ++ [TaskEvent.finished m id]) n
      = if m == n then (aliveIds t n).filter (fun x => x != id)
        else aliveIds t n := by
  rw [aliveIds_append]
  rfl

theorem aliveIds_snoc_cancel (t : List TaskEvent) (m : String) (id : ℕ)
    (n : String) :
    aliveIds (t ++ [TaskEvent.cancelRequested m id]) n = aliveIds t n := by
  rw [aliveIds_append]
  rfl

theorem prefix_append_cases {α : Type} {a b t1 : List α} (h : t1 <+: a ++ b) :
    t1 <+: a ∨ ∃ b1, b1 <+: b ∧ t1 = a ++ b1 := by
  rcases ( List.prefix_or_prefix_of_prefix h ( List.prefix_append a b)) with h1 | h1
  · exact Or.inl h1
  · obtain ⟨s, hs⟩ := h1
    obtain ⟨r, hr⟩ := h
    refine Or.inr ⟨s, ⟨r, ?_⟩, hs.symm⟩
    rw [← hs, List.append_assoc] at hr
    exact (List.append_cancel_left hr)

theorem prefix_cons_cases {α : Type} {x : α} {l t1 : List α}
    (h : t1 <+: x :: l) :
    t1 = [] ∨ ∃ t2, t2 <+: l ∧ t1 = x :: t2 := by
  cases t1 with
  | nil => exact Or.inl rfl
  | cons y t2 =>
    obtain ⟨r, hr⟩ := h
    rw [List.cons_append] at hr
    injection hr with h1 h2
    exact Or.inr ⟨t2, ⟨r, h2⟩, by rw [h1]⟩

theorem regAlive_length_le_one (reg : List (String × TaskInst)) (n : String) :
    (regAlive reg n).length ≤ 1 := by
  rw [regAlive]
  cases lookupTask reg n with
  | none => simp
  | some inst => cases hdone : inst.done <;> simp [hdone]

theorem lookupTask_cons (k : String) (v : TaskInst)
    (rest : List (String × TaskInst)) (n : String) :
    lookupTask ((k, v) :: rest) n
      = if k == n then some v else lookupTask rest n := by
  rw [lookupTask, List.find?_cons]
  cases hk : k == n <;> simp [hk, lookupTask]

theorem lookupTask_none_of_not_mem (reg : List (String × TaskInst)) (n : String)
    (h : n ∉ reg.map (fun p => p.1)) : lookupTask reg n = none := by
  have hfind : List.find? (fun p => p.1 == n) reg = none := by
    rw [List.find?_eq_none]
    intro p hp hbeq
    exact h ((eq_of_beq hbeq) ▸ List.mem_map_of_mem (fun p => p.1) hp)
  rw [lookupTask, hfind]
  rfl

theorem setTask_names (reg : List (String × TaskInst)) (n : String)
    (i : TaskInst) :
    (setTask reg n i).map (fun p => p.1) = reg.map (fun p => p.1) := by
  rw [setTask, List.map_map]
  apply List.map_congr_left
  intro p _
  by_cases hp : p.1 = n <;> simp [hp]

theorem setTask_cons (k : String) (v : TaskInst)
    (rest : List (String × TaskInst)) (m : String) (i : TaskInst) :
    setTask ((k, v) :: rest) m i
      = (if k == m then (k, i) else (k, v)) :: setTask rest m i := by
  rw [setTask, List.map_cons]
  cases hk : k == m <;> simp [hk, setTask]

theorem lookupTask_setTask (reg : List (String × TaskInst)) (m : String)
    (i : TaskInst) (n : String) :
    lookupTask (setTask reg m i) n
      = if m == n then (lookupTask reg n).map (fun _ => i)
        else lookupTask reg n := by
  induction reg with
  | nil => cases hmn : m == n <;> simp [setTask, lookupTask, hmn]
  | cons hd rest ih =>
    obtain ⟨k, v⟩ := hd
    rw [setTask_cons]
    by_cases hkm : k = m
    · subst hkm
      by_cases hkn : k = n
      · subst hkn
        simp [lookupTask_cons, ih]
      · have h1 : (k == n) = false := beq_eq_false_iff_ne.2 hkn
        simp [lookupTask_cons, ih, h1]
    · have h1 : (k == m) = false := beq_eq_false_iff_ne.2 hkm
      by_cases hkn : k = n
      · subst hkn
        have h2 : (m == k) = false :=
          beq_eq_false_iff_ne.2 (fun he => hkm he.symm)
        simp [lookupTask_cons, ih, h1, h2]
      · have h2 : (k == n) = false := beq_eq_false_iff_ne.2 hkn
        cases hmn : m == n <;> simp [lookupTask_cons, ih, h1, h2, hmn]

theorem started_fold (entries : List (String × ℕ)) :
    ∀ (n : String) (acc : List ℕ),
      (entries.map (fun p => TaskEvent.started p.1 p.2)).foldl (aliveStep n) acc
        = acc ++ (entries.filter (fun p => p.1 == n)).map (fun p => p.2) := by
  induction entries with
  | nil => intro n acc; simp
  | cons p rest ih =>
    intro n acc
    rw [List.map_cons, List.foldl_cons, List.filter_cons]
    cases hp : p.1 == n
    · rw [ih]
      simp [aliveStep, hp]
    · rw [ih]
      simp [aliveStep, hp]

theorem filter_names_single (entries : List (String × ℕ)) (n : String)
    (hnd : (entries.map (fun p => p.1)).Nodup) :
    ((entries.filter (fun p => p.1 == n)).map (fun p => p.2)).length ≤ 1 := by
  induction entries with
  | nil => simp
  | cons p rest ih =>
    rw [List.map_cons, List.nodup_cons] at hnd
    rw [List.filter_cons]
    cases hp : p.1 == n
    · simpa using ih hnd.2
    · have hrest : rest.filter (fun q => q.1 == n) = [] := by
        rw [List.filter_eq_nil_iff]
        intro q hq hbeq
        exact hnd.1 ((eq_of_beq hp).trans (eq_of_beq hbeq).symm ▸
          List.mem_map_of_mem (fun p => p.1) hq)
      simp [hrest]

theorem regAlive_cons (k : String) (v : TaskInst)
    (rest : List (String × TaskInst)) (n : String) :
    regAlive ((k, v) :: rest) n
      = if k == n then (if v.done then [] else [v.id]) else regAlive rest n := by
  rw [regAlive, lookupTask_cons]
  cases hk : k == n <;> simp [hk, regAlive]

theorem regAlive_fresh_entries (entries : List (String × ℕ)) (n : String)
    (hnd : (entries.map (fun p => p.1)).Nodup) :
    regAlive (entries.map (fun p => (p.1, TaskInst.mk p.2 false))) n
      = (entries.filter (fun p => p.1 == n)).map (fun p => p.2) := by
  induction entries with
  | nil => simp [regAlive, lookupTask]
  | cons p rest ih =>
    rw [List.map_cons, List.nodup_cons] at hnd
    rw [List.map_cons, regAlive_cons, List.filter_cons]
    cases hp : p.1 == n
    · simp [ih hnd.2]
    · have hrest : rest.filter (fun q => q.1 == n) = [] := by
        rw [List.filter_eq_nil_iff]
        intro q hq hbeq
        exact hnd.1 ((eq_of_beq hp).trans (eq_of_beq hbeq).symm ▸
          List.mem_map_of_mem (fun p => p.1) hq)
      simp [hrest]

theorem stop_run : ∀ (reg : List (String × TaskInst)) (t : List TaskEvent),
    ((reg.map (fun p => p.1)).Nodup) →
    (∀ n, aliveIds t n = regAlive reg n) →
    (∀ n, aliveIds (t ++ stopEvents reg) n = [])
    ∧ (∀ u, u <+: stopEvents reg → ∀ n, (aliveIds (t ++ u) n).length ≤ 1) := by
  intro reg
  induction reg with
  | nil =>
    intro t _ ha
    constructor
    · intro n
      have h0 : regAlive [] n = [] := by simp [regAlive, lookupTask]
      simpa [stopEvents, h0] using ha n
    · intro u hu n
      have hu0 : u = [] := List.prefix_nil.1 (by simpa [stopEvents] using hu)
      subst hu0
      rw [List.append_nil, ha n]
      exact regAlive_length_le_one [] n
  | cons hd rest ih =>
    obtain ⟨m, inst⟩ := hd
    intro t hnd ha
    rw [List.map_cons, List.nodup_cons] at hnd
    have hmrest : lookupTask rest m = none := lookupTask_none_of_not_mem rest m hnd.1
    have hstopc : stopEvents ((m, inst) :: rest)
        = (if inst.done then []
            else [TaskEvent.cancelRequested m inst.id, TaskEvent.finished m inst.id])
          ++ stopEvents rest := by
      rw [stopEvents, List.flatMap_cons]
      rfl
    cases hdone : inst.done
    · -- the head instance is still running: stop cancels and awaits it
      have ha2 : ∀ n,
          aliveIds (t ++ [TaskEvent.cancelRequested m inst.id,
            TaskEvent.finished m inst.id]) n = regAlive rest n := by
        intro n
        have hsplit : t ++ [TaskEvent.cancelRequested m inst.id,
            TaskEvent.finished m inst.id]
          = (t ++ [TaskEvent.cancelRequested m inst.id])
              ++ [TaskEvent.finished m inst.id] := by
          simp
        rw [hsplit, aliveIds_snoc_finished, aliveIds_snoc_cancel, ha n,
          regAlive_cons]
        by_cases hmn : m = n
        · subst hmn
          simp [hdone, regAlive, hmrest]
        · simp [beq_eq_false_iff_ne.2 hmn]
      obtain ⟨ihA, ihB⟩ := ih
        (t ++ [TaskEvent.cancelRequested m inst.id, TaskEvent.finished m inst.id])
        hnd.2 ha2
      constructor
      · intro n
        rw [hstopc, hdone]
        simp only [Bool.false_eq_true, if_false]
        rw [show t ++ ([TaskEvent.cancelRequested m inst.id,
            TaskEvent.finished m inst.id] ++ stopEvents rest)
          = (t ++ [TaskEvent.cancelRequested m inst.id,
              TaskEvent.finished m inst.id]) ++ stopEvents rest by simp]
        exact ihA n
      · intro u hu n
        rw [hstopc, hdone] at hu
        simp only [Bool.false_eq_true, if_false] at hu
        rcases prefix_append_cases hu with hcase | ⟨u2, hu2, rfl⟩
        · rcases prefix_cons_cases hcase with rfl | ⟨u3, hu3, rfl⟩
          · rw [List.append_nil, ha n]
            exact regAlive_length_le_one _ n
          · rcases prefix_cons_cases hu3 with rfl | ⟨u4, hu4, rfl⟩
            · rw [aliveIds_snoc_cancel, ha n]
              exact regAlive_length_le_one _ n
            · have hu5 : u4 = [] := List.prefix_nil.1 hu4
              subst hu5
              have := ha2 n
              rw [this]
              exact regAlive_length_le_one rest n
        · rw [show t ++ ([TaskEvent.cancelRequested m inst.id,
              TaskEvent.finished m inst.id] ++ u2)
            = (t ++ [TaskEvent.cancelRequested m inst.id,
                TaskEvent.finished m inst.id]) ++ u2 by simp]
          exact ihB u2 hu2 n
    · -- the head instance is already done: no events for it
      have ha2 : ∀ n, aliveIds t n = regAlive rest n := by
        intro n
        rw [ha n, regAlive_cons]
        by_cases hmn : m = n
        · subst hmn
          simp [hdone, regAlive, hmrest]
        · simp [beq_eq_false_iff_ne.2 hmn]
      obtain ⟨ihA, ihB⟩ := ih t hnd.2 ha2
      constructor
      · intro n
        rw [hstopc, hdone]
        simpa using ihA n
      · intro u hu n
        rw [hstopc, hdone] at hu
        simp only [if_true] at hu
        exact ihB u (by simpa using hu) n

theorem started_prefix_bound (entries : List (String × ℕ)) :
    ∀ (t : List TaskEvent),
      ((entries.map (fun p => p.1)).Nodup) →
      (∀ n, (aliveIds t n).length ≤ 1) →
      (∀ n, n ∈ entries.map (fun p => p.1) → aliveIds t n = []) →
      ∀ u, u <+: entries.map (fun p => TaskEvent.started p.1 p.2) →
        ∀ n, (aliveIds (t ++ u) n).length ≤ 1 := by
  induction entries with
  | nil =>
    intro t _ hlen _ u hu n
    have hu0 : u = [] := List.prefix_nil.1 (by simpa using hu)
    subst hu0
    simpa using hlen n
  | cons p rest ih =>
    intro t hnd hlen hmem u hu n
    rw [List.map_cons, List.nodup_cons] at hnd
    rcases prefix_cons_cases (by simpa using hu) with rfl | ⟨u2, hu2, rfl⟩
    · simpa using hlen n
    · rw [show t ++ (TaskEvent.started p.1 p.2 :: u2)
        = (t ++ [TaskEvent.started p.1 p.2]) ++ u2 by simp]
      refine ih (t ++ [TaskEvent.started p.1 p.2]) hnd.2 ?_ ?_ u2 hu2 n
      · intro n2
        rw [aliveIds_snoc_started]
        cases hp : p.1 == n2
        · simpa using hlen n2
        · rw [hmem n2 (by
            rw [← eq_of_beq hp]
            exact List.mem_cons_self _ _)]
          simp
      · intro n2 hn2
        rw [aliveIds_snoc_started]
        have hp : (p.1 == n2) = false :=
          beq_eq_false_iff_ne.2 (fun he => hnd.1 (he ▸ hn2))
        rw [hp]
        exact hmem n2 (List.mem_cons_of_mem _ hn2)

theorem supInv_exec (s : SupervisorState) (op : SupOp) (h : SupInv s) :
    SupInv (supExec s op) := by
  obtain ⟨h1, h2, h3, h4⟩ := h
  cases op with
  | start =>
    simp only [supExec]
    by_cases hrun : s.isRunning = true
    · rw [if_pos hrun]
      exact ⟨h1, h2, h3, h4⟩
    · rw [if_neg hrun]
      have hreg : s.reg = [] := h3 (Bool.not_eq_true s.isRunning ▸ hrun)
      have ha0 : ∀ n, aliveIds s.trace n = [] := by
        intro n
        rw [h1 n, hreg]
        simp [regAlive, lookupTask]
      have hndE : ((startEntries s.next).map (fun p => p.1)).Nodup := by
        have hlit : (["violation_polling", "stats_refresh", "cache_cleanup",
            "health_check"] : List String).Nodup := by decide
        exact hlit
      refine ⟨?_, ?_, ?_, ?_⟩
      · intro n
        show aliveIds (s.trace ++ (startEntries s.next).map
          (fun p => TaskEvent.started p.1 p.2)) n = _
        rw [aliveIds_append, started_fold, ha0 n,
          regAlive_fresh_entries _ _ hndE]
        rfl
      · intro t1 ht1 n
        rcases prefix_append_cases ht1 with hold | ⟨u, hu, rfl⟩
        · exact h2 t1 hold n
        · exact started_prefix_bound (startEntries s.next) s.trace hndE
            (fun n2 => by rw [ha0 n2]; simp) (fun n2 _ => ha0 n2) u hu n
      · intro hfalse
        cases hfalse
      · show (((startEntries s.next).map
          (fun p => (p.1, TaskInst.mk p.2 false))).map (fun p => p.1)).Nodup
        rw [List.map_map]
        exact hndE
  | stop =>
    simp only [supExec]
    by_cases hrun : s.isRunning = true
    · rw [if_pos hrun]
      obtain ⟨hA, hB⟩ := stop_run s.reg s.trace h4 h1
      refine ⟨?_, ?_, ?_, ?_⟩
      · intro n
        show aliveIds (s.trace ++ stopEvents s.reg) n = regAlive [] n
        rw [hA n]
        simp [regAlive, lookupTask]
      · intro t1 ht1 n
        rcases prefix_append_cases ht1 with hold | ⟨u, hu, rfl⟩
        · exact h2 t1 hold n
        · exact hB u hu n
      · intro _
        rfl
      · simp
    · rw [if_neg hrun]
      exact ⟨h1, h2, h3, h4⟩
  | restart n0 =>
    simp only [supExec]
    cases hlook : lookupTask s.reg n0 with
    | none => exact ⟨h1, h2, h3, h4⟩
    | some inst =>
      have hmid : ∀ n,
          aliveIds (s.trace ++ (if inst.done then []
            else [TaskEvent.cancelRequested n0 inst.id,
              TaskEvent.finished n0 inst.id])) n
          = if n0 == n then [] else regAlive s.reg n := by
        intro n
        cases hdone : inst.done
        · simp only [Bool.false_eq_true, if_false]
          rw [show s.trace ++ [TaskEvent.cancelRequested n0 inst.id,
              TaskEvent.finished n0 inst.id]
            = (s.trace ++ [TaskEvent.cancelRequested n0 inst.id])
              ++ [TaskEvent.finished n0 inst.id] by simp]
          rw [aliveIds_snoc_finished, aliveIds_snoc_cancel, h1 n]
          cases hn : n0 == n
          · rfl
          · have hlookn : lookupTask s.reg n = some inst := (eq_of_beq hn) ▸ hlook
            rw [regAlive, hlookn]
            simp [hdone]
        · simp only [if_true, List.append_nil]
          rw [h1 n]
          cases hn : n0 == n
          · rfl
          · have hlookn : lookupTask s.reg n = some inst := (eq_of_beq hn) ▸ hlook
            rw [regAlive, hlookn]
            simp [hdone]
      have hfin : ∀ n,
          aliveIds ((s.trace ++ (if inst.done then []
              else [TaskEvent.cancelRequested n0 inst.id,
                TaskEvent.finished n0 inst.id]))
            ++ [TaskEvent.started n0 s.next]) n
          = regAlive (setTask s.reg n0 (TaskInst.mk s.next false)) n := by
        intro n
        rw [aliveIds_snoc_started, hmid n]
        cases hn : n0 == n
        · have hR : regAlive (setTask s.reg n0 (TaskInst.mk s.next false)) n
              = regAlive s.reg n := by
            rw [regAlive, lookupTask_setTask, hn]
            simp only [Bool.false_eq_true, if_false]
            rfl
          simp [hR]
        · have hlookn : lookupTask s.reg n = some inst := (eq_of_beq hn) ▸ hlook
          have hR : regAlive (setTask s.reg n0 (TaskInst.mk s.next false)) n
              = [s.next] := by
            rw [regAlive, lookupTask_setTask, hn, hlookn]
            simp
          simp [hR]
      refine ⟨fun n => hfin n, ?_, ?_, ?_⟩
      · intro t1 ht1 n
        have ht2 : t1 <+: (s.trace ++ (if inst.done then []
            else [TaskEvent.cancelRequested n0 inst.id,
              TaskEvent.finished n0 inst.id]))
          ++ [TaskEvent.started n0 s.next] := ht1
        rcases prefix_append_cases ht2 with hpre | ⟨u, hu, rfl⟩
        · -- prefix of the cancel-await part
          cases hdone : inst.done
          · rw [hdone] at hpre
            simp only [Bool.false_eq_true, if_false] at hpre
            rcases prefix_append_cases hpre with hold | ⟨u, hu, rfl⟩
            · exact h2 t1 hold n
            · rcases prefix_cons_cases hu with rfl | ⟨u3, hu3, rfl⟩
              · rw [List.append_nil, h1 n]
                exact regAlive_length_le_one _ n
              · rcases prefix_cons_cases hu3 with rfl | ⟨u4, hu4, rfl⟩
                · rw [aliveIds_snoc_cancel, h1 n]
                  exact regAlive_length_le_one _ n
                · have hu5 : u4 = [] := List.prefix_nil.1 hu4
                  subst hu5
                  have := hmid n
                  rw [hdone] at this
                  simp only [Bool.false_eq_true, if_false] at this
                  rw [this]
                  cases hn : n0 == n
                  · exact regAlive_length_le_one _ n
                  · simp
          · rw [hdone] at hpre
            simp only [if_true] at hpre
            rcases prefix_append_cases hpre with hold | ⟨u, hu, rfl⟩
            · exact h2 t1 hold n
            · have hu0 : u = [] := List.prefix_nil.1 hu
              subst hu0
              rw [List.append_nil, h1 n]
              exact regAlive_length_le_one _ n
        · rcases prefix_cons_cases hu with rfl | ⟨u3, hu3, rfl⟩
          · rw [List.append_nil, hmid n]
            cases hn : n0 == n
            · exact regAlive_length_le_one _ n
            · simp
          · have hu4 : u3 = [] := List.prefix_nil.1 hu3
            subst hu4
            rw [hfin n]
            exact regAlive_length_le_one _ n
      · intro hfalse
        exfalso
        have hreg : s.reg = [] := h3 hfalse
        rw [hreg] at hlook
        rw [show lookupTask [] n0 = none from rfl] at hlook
        cases hlook
      · show ((setTask s.reg n0 (TaskInst.mk s.next false)).map
          (fun p => p.1)).Nodup
        rw [setTask_names]
        exact h4
  | bodyEnds n0 =>
    simp only [supExec]
    cases hlook : lookupTask s.reg n0 with
    | none => exact ⟨h1, h2, h3, h4⟩
    | some inst =>
      show SupInv (if inst.done then s
        else { reg := setTask s.reg n0 (TaskInst.mk inst.id true)
               isRunning := s.isRunning
               next := s.next
               trace := s.trace ++ [TaskEvent.finished n0 inst.id] })
      cases hdone : inst.done
      · simp only [Bool.false_eq_true, if_false]
        have hfin : ∀ n,
            aliveIds (s.trace ++ [TaskEvent.finished n0 inst.id]) n
            = regAlive (setTask s.reg n0 (TaskInst.mk inst.id true)) n := by
          intro n
          rw [aliveIds_snoc_finished, h1 n]
          cases hn : n0 == n
          · have hR : regAlive (setTask s.reg n0 (TaskInst.mk inst.id true)) n
                = regAlive s.reg n := by
              rw [regAlive, lookupTask_setTask, hn]
              simp only [Bool.false_eq_true, if_false]
              rfl
            simp [hR]
          · have hlookn : lookupTask s.reg n = some inst := (eq_of_beq hn) ▸ hlook
            have hR : regAlive (setTask s.reg n0 (TaskInst.mk inst.id true)) n
                = [] := by
              rw [regAlive, lookupTask_setTask, hn, hlookn]
              simp
            rw [hR]
            have hL : regAlive s.reg n = [inst.id] := by
              rw [regAlive, hlookn]
              simp [hdone]
            simp [hL]
        refine ⟨?_, ?_, ?_, ?_⟩
        · exact hfin
        · intro t1 ht1 n
          rcases prefix_append_cases ht1 with hold | ⟨u, hu, rfl⟩
          · exact h2 t1 hold n
          · rcases prefix_cons_cases hu with rfl | ⟨u3, hu3, rfl⟩
            · rw [List.append_nil, h1 n]
              exact regAlive_length_le_one _ n
            · have hu4 : u3 = [] := List.prefix_nil.1 hu3
              subst hu4
              rw [hfin n]
              exact regAlive_length_le_one _ n
        · intro hfalse
          exfalso
          have hreg : s.reg = [] := h3 hfalse
          rw [hreg] at hlook
          rw [show lookupTask [] n0 = none from rfl] at hlook
          cases hlook
        · show ((setTask s.reg n0 (TaskInst.mk inst.id true)).map
            (fun p => p.1)).Nodup
          rw [setTask_names]
          exact h4
      · simp only [if_true]
        exact ⟨h1, h2, h3, h4⟩

theorem supInv_execOps : ∀ (ops : List SupOp) (s : SupervisorState),
    SupInv s → SupInv (supExecOps ops s) := by
  intro ops
  induction ops with
  | nil => intro s h; exact h
  | cons op rest ih =>
    intro s h
    exact ih (supExec s op) (supInv_exec s op h)

theorem supInv_init : SupInv initSupervisor := by
  refine ⟨?_, ?_, ?_, ?_⟩
  · intro n
    rfl
  · intro t ht n
    have ht0 : t = [] := List.prefix_nil.1 ht
    subst ht0
    simp [aliveIds]
  · intro _
    rfl
  · simp [initSupervisor]

/-- C8 (amended): as long as supervisor operations are serialized — each
`start` / `stop` / `restart_task` call, and each task termination, completes
before the next operation begins — `restart_task` cancels and awaits the old
instance before starting its replacement, and along every such operation
sequence, at every point of the event trace, at most one instance of each
named task is alive.  (Two overlapping `restart_task` calls for the same name
break this; see the counterexample.) -/
theorem supervisor_single_instance (ops : List SupOp) (t : List TaskEvent)
    (n : String) (ht : t <+: (supExecOps ops initSupervisor).trace) :
    (aliveIds t n).length ≤ 1 :=
  (supInv_execOps ops initSupervisor supInv_init).2.1 t ht n

/-- Witness for C8: the full trace of a start followed by a restart of the
violation-polling task. -/
theorem supervisor_single_instance_witness :
    (aliveIds (supExecOps [SupOp.start, SupOp.restart "violation_polling"]
      initSupervisor).trace "violation_polling").length ≤ 1 :=
  supervisor_single_instance [SupOp.start, SupOp.restart "violation_polling"]
    (supExecOps [SupOp.start, SupOp.restart "violation_polling"]
      initSupervisor).trace "violation_polling" List.prefix_rfl

/-- C8 (counterexample): two `restart_task("violation_polling")` calls that
overlap — both observe the old instance not yet done, both cancel and await
it, and each creates a replacement when resumed — leave two instances of the
task alive at once: `asyncio.create_task` runs twice, the registry keeps only
the second, and the first new instance keeps running unreferenced. -/
theorem supervisor_overlapping_restart_counterexample :
    (aliveIds (runRestartSchedule
        [RestartStep.enter1, RestartStep.enter2, RestartStep.taskTurn 0,
          RestartStep.resume1, RestartStep.resume2]
        initRestartWorld).trace vpName).length = 2
    ∧ ¬ ((aliveIds (runRestartSchedule
        [RestartStep.enter1, RestartStep.enter2, RestartStep.taskTurn 0,
          RestartStep.resume1, RestartStep.resume2]
        initRestartWorld).trace vpName).length ≤ 1) := by
  exact ⟨by decide, by decide⟩

end Frigate
